import Mathlib

/-!
Shallow embedding of the variable-context, time-formatting and HTTP-response
parts of the blip_script_v2_lib JavaScript library, together with proofs of
the behavioural properties of its `Context`, `VariableRepository`,
`TimeFormatter` and `HttpResponseWrapper` classes.

Conventions of the embedding:
* JavaScript runtime values are modelled by the inductive `JSValue`
  (`undefined`, `null`, booleans, numbers as `Int`, strings, objects as
  association lists of fields); the empty object literal is `JSValue.jsObj []`.
* `Date.now()` is modelled by threading an explicit `now : Int` (milliseconds)
  argument through every operation that reads the clock.
* The mutable `Map` held by `VariableRepository` is modelled as an association
  list threaded through each operation; methods that mutate return the updated
  list alongside their result.
* A thrown JavaScript error is modelled by `Except JsError`; `async` methods
  complete synchronously in the source, so the promise wrapper is dropped.
-/

/-- Model of the JavaScript values that can flow through the library:
`undefined`, `null`, booleans, numbers (as `Int`; `NaN`/non-integral values
play no role in the verified properties), strings, and plain objects as field
lists. The empty object literal of the source is `jsObj []`. -/
inductive JSValue where
  | undefined
  | jsNull
  | jsBool (b : Bool)
  | jsNum (n : Int)
  | jsStr (s : String)
  | jsObj (fields : List (String × JSValue))

/-- The strict-equality test `value === undefined` of the source. -/
def JSValue.isUndefined : JSValue → Bool
  | .undefined => true
  | _ => false

/-- JavaScript truthiness (`!name` in the source tests falsiness):
`undefined`, `null`, `false`, `0` and the empty string are falsy, everything
else modelled here is truthy. -/
def JSValue.truthy : JSValue → Bool
  | .undefined => false
  | .jsNull => false
  | .jsBool b => b
  | .jsNum n => n != 0
  | .jsStr s => !s.isEmpty
  | .jsObj _ => true

/-- The error kinds thrown by the library: `ReferenceError` and `TypeError`
from `VariableName`, and the `NegativeExpirationError` (whose `name` property
is "ExpirationError") from `Context.setVariableAsync`. Message strings are
elided; only the kind is observable in the verified properties. -/
inductive JsError where
  | referenceError
  | typeError
  | expirationError
deriving DecidableEq

/-- A naming error is one raised by `VariableName` construction:
`ReferenceError` (missing/falsy name) or `TypeError` (non-string name). -/
def JsError.isNaming : JsError → Bool
  | .referenceError => true
  | .typeError => true
  | .expirationError => false

/-- `new VariableName(name)`: throws `ReferenceError` when `name` is falsy,
`TypeError` when it is not a string; otherwise wraps the (necessarily
non-empty) string. `toString` is the identity on the wrapped string, so the
model returns the string directly. -/
def VariableName.create (name : JSValue) : Except JsError String :=
  if !name.truthy then .error .referenceError
  else match name with
    | .jsStr s => .ok s
    | _ => .error .typeError

/-- `VariableEntry`: a stored value together with its absolute expiry
timestamp (`null` when the entry never expires). -/
structure VariableEntry where
  value : JSValue
  expiration : Option Int

/-- `new VariableEntry(value, expiration)` evaluated when `Date.now()` is
`now`: `expiration > 0` fixes the absolute deadline `now + expiration`,
otherwise the entry never expires. -/
def VariableEntry.create (value : JSValue) (expiration : Int) (now : Int) : VariableEntry :=
  { value := value
    expiration := if expiration > 0 then some (now + expiration) else none }

/-- `VariableEntry.isExpired()` evaluated when `Date.now()` is `now`:
expired iff a deadline exists and `now` is strictly past it. -/
def VariableEntry.isExpired (e : VariableEntry) (now : Int) : Bool :=
  match e.expiration with
  | some deadline => now > deadline
  | none => false

/-- The `Map` inside `VariableRepository`, as an association list with unique
keys (JavaScript `Map` keeps one entry per key; insertion order is irrelevant
to every property proved here). -/
abbrev VariableRepository := List (String × VariableEntry)

/-- `Map.prototype.get`: the entry stored under `name`, if any. -/
def VariableRepository.mapGet (st : VariableRepository) (name : String) : Option VariableEntry :=
  match st with
  | [] => none
  | (k, e) :: rest => if k = name then some e else VariableRepository.mapGet rest name

/-- `Map.prototype.set`: replace the entry under `name` in place, or append a
fresh one. -/
def VariableRepository.mapSet (st : VariableRepository) (name : String) (e : VariableEntry) :
    VariableRepository :=
  match st with
  | [] => [(name, e)]
  | (k, e') :: rest =>
    if k = name then (name, e) :: rest
    else (k, e') :: VariableRepository.mapSet rest name e

/-- `Map.prototype.delete`: remove the entry under `name`, if any. -/
def VariableRepository.mapDelete (st : VariableRepository) (name : String) : VariableRepository :=
  match st with
  | [] => []
  | (k, e) :: rest =>
    if k = name then rest
    else (k, e) :: VariableRepository.mapDelete rest name

/-- `VariableRepository.has(name)`: true iff an entry exists and is not
expired at time `now` (the source returns `entry && !entry.isExpired()`;
observation does not evict). -/
def VariableRepository.has (st : VariableRepository) (name : String) (now : Int) : Bool :=
  match st.mapGet name with
  | none => false
  | some e => !e.isExpired now

/-- `VariableRepository.get(name)`: when the entry is absent or expired the
source deletes the key and returns `null` (modelled as `JSValue.jsNull`);
otherwise it returns the stored value. The updated map is returned alongside. -/
def VariableRepository.get (st : VariableRepository) (name : String) (now : Int) :
    JSValue × VariableRepository :=
  match st.mapGet name with
  | none => (JSValue.jsNull, st.mapDelete name)
  | some e =>
    if e.isExpired now then (JSValue.jsNull, st.mapDelete name)
    else (e.value, st)

/-- `VariableRepository.set(name, value, expiration)`: store a fresh
`VariableEntry` under `name`, overwriting any previous one. -/
def VariableRepository.set (st : VariableRepository) (name : String) (value : JSValue)
    (expiration : Int) (now : Int) : VariableRepository :=
  st.mapSet name (VariableEntry.create value expiration now)

/-- `VariableRepository.delete(name)`: remove the entry, a no-op when absent. -/
def VariableRepository.delete (st : VariableRepository) (name : String) : VariableRepository :=
  st.mapDelete name

/-- `Context.getVariableAsync(name)`: validate `name` via `VariableName`,
then delegate to `VariableRepository.get`. On a naming error the repository
is untouched. -/
def Context.getVariableAsync (st : VariableRepository) (name : JSValue) (now : Int) :
    Except JsError JSValue × VariableRepository :=
  match VariableName.create name with
  | .error e => (.error e, st)
  | .ok n =>
    let r := st.get n now
    (.ok r.1, r.2)

/-- `Context.setVariableAsync(name, value, expiration)`: validate `name`,
throw `ExpirationError` when `expiration < 0`, then (mirroring the source
exactly) if `value === undefined` store an empty object under `name` and,
falling through the un-guarded next statement, store `value` itself
unconditionally afterwards. -/
def Context.setVariableAsync (st : VariableRepository) (name : JSValue) (value : JSValue)
    (expiration : Int) (now : Int) : Except JsError Unit × VariableRepository :=
  match VariableName.create name with
  | .error e => (.error e, st)
  | .ok n =>
    if expiration < 0 then (.error .expirationError, st)
    else
      let st1 := if value.isUndefined
        then st.set n (JSValue.jsObj []) expiration now
        else st
      (.ok (), st1.set n value expiration now)

/-- `Context.deleteVariableAsync(name)`: validate `name`; return early (no
mutation) when `has` is false, otherwise delete the entry. -/
def Context.deleteVariableAsync (st : VariableRepository) (name : JSValue) (now : Int) :
    Except JsError Unit × VariableRepository :=
  match VariableName.create name with
  | .error e => (.error e, st)
  | .ok n =>
    if !st.has n now then (.ok (), st)
    else (.ok (), st.delete n)

/-- Whether `target` occurs at the head of `cs`. -/
def listStartsWith : List Char → List Char → Bool
  | _, [] => true
  | [], _ :: _ => false
  | c :: cs, p :: ps => c = p && listStartsWith cs ps

/-- First-occurrence replacement on character lists: the semantics of
JavaScript `String.prototype.replace` with a (non-empty) string search
argument — only the leftmost occurrence of `pat` is replaced by `rep`, and a
string with no occurrence is returned unchanged. -/
def replaceFirstList (cs pat rep : List Char) : List Char :=
  match cs with
  | [] => []
  | c :: rest =>
    if listStartsWith (c :: rest) pat then rep ++ (c :: rest).drop pat.length
    else c :: replaceFirstList rest pat rep

/-- JavaScript `s.replace(pat, rep)` for string `pat`: replace the first
occurrence only. -/
def strReplaceFirst (s pat rep : String) : String :=
  String.mk (replaceFirstList s.data pat.data rep.data)

/-- `TimeFormatter.replaceFormatTokens(format)`: the source's
`format.replace("dd", "DD")` — a first-occurrence string replacement. -/
def TimeFormatter.replaceFormatTokens (format : String) : String :=
  strReplaceFirst format "dd" "DD"

/-- `TimeFormatter.defaultFormat()`: the fixed default pattern (seven
sub-second digits and a numeric zone offset token). -/
def TimeFormatter.defaultFormat : String :=
  "YYYY-MM-DDTHH:mm:ss.SSSSSSSZ"

/-- `Time.#normalizeFormat(format)`: `format ? replaceFormatTokens(format)
: defaultFormat()`. An absent option or an empty (falsy) string selects the
default format. -/
def Time.normalizeFormat (format : Option String) : String :=
  match format with
  | some f => if f.isEmpty then TimeFormatter.defaultFormat
              else TimeFormatter.replaceFormatTokens f
  | none => TimeFormatter.defaultFormat

/-- The observable fields of the successor `HttpResponseWrapper` (the
variant that tolerates malformed JSON bodies): `json = none` models the field
being absent from the object. -/
structure HttpResponseWrapper where
  status : Int
  headers : List (String × String)
  body : String
  success : Bool
  json : Option JSValue

/-- `HttpResponseWrapper.#parseJson(body)`: `JSON.parse` is host-library
code, so its outcome on the raw body (`.ok` a JSON value, or `.error` when it
throws a `SyntaxError`) is passed in as `parseOutcome`; the catch block turns
a throw into `undefined`, i.e. `none`. -/
def HttpResponseWrapper.parseJson (parseOutcome : Except String JSValue) : Option JSValue :=
  match parseOutcome with
  | .ok v => some v
  | .error _ => none

/-- `new HttpResponseWrapper(response, rawBody)`: copies the status and
(already converted) headers, keeps the raw body, computes `success` as
status 2xx, and assigns the `json` field only when `#parseJson` did not
return `undefined`. -/
def HttpResponseWrapper.create (status : Int) (headers : List (String × String))
    (rawBody : String) (parseOutcome : Except String JSValue) : HttpResponseWrapper :=
  { status := status
    headers := headers
    body := rawBody
    success := status ≥ 200 && status < 300
    json := HttpResponseWrapper.parseJson parseOutcome }

/-- `HttpResponseWrapper.jsonAsync()`: resolves to the `json` field
(`undefined`, i.e. `none`, when the field is absent). -/
def HttpResponseWrapper.jsonAsync (w : HttpResponseWrapper) : Option JSValue :=
  w.json

/-- A valid variable name in the sense of `VariableName`: a non-empty
string. Every other value (empty string, `undefined`, `null`, or any
non-string) makes the constructor throw. -/
def JSValue.validVariableName : JSValue → Bool
  | .jsStr s => !s.isEmpty
  | _ => false

/-- The invariant a JavaScript `Map` maintains and every reachable
repository state satisfies: one entry per key. -/
def VariableRepository.wellFormed (st : VariableRepository) : Prop :=
  (st.map Prod.fst).Nodup

/- ## Helper lemmas about the association-list `Map` model -/

theorem mapGet_mapSet_self (st : VariableRepository) (name : String) (e : VariableEntry) :
    (st.mapSet name e).mapGet name = some e := by
  induction st with
  | nil => simp [VariableRepository.mapSet, VariableRepository.mapGet]
  | cons hd tl ih =>
    obtain ⟨k, e'⟩ := hd
    by_cases h : k = name <;>
      simp [VariableRepository.mapSet, VariableRepository.mapGet, h, ih]

theorem mapGet_eq_none_of_not_mem (st : VariableRepository) (name : String)
    (h : name ∉ st.map Prod.fst) : st.mapGet name = none := by
  induction st with
  | nil => rfl
  | cons hd tl ih =>
    obtain ⟨k, e⟩ := hd
    simp only [List.map_cons, List.mem_cons] at h
    push_neg at h
    have hk : ¬k = name := fun hk => h.1 hk.symm
    simp [VariableRepository.mapGet, hk, ih h.2]

theorem mapGet_mapDelete_self (st : VariableRepository) (name : String)
    (hwf : st.wellFormed) : (st.mapDelete name).mapGet name = none := by
  induction st with
  | nil => rfl
  | cons hd tl ih =>
    obtain ⟨k, e⟩ := hd
    simp only [VariableRepository.wellFormed, List.map_cons, List.nodup_cons] at hwf
    by_cases h : k = name
    · subst h
      simpa [VariableRepository.mapDelete] using
        mapGet_eq_none_of_not_mem tl k hwf.1
    · simpa [VariableRepository.mapDelete, VariableRepository.mapGet, h] using
        ih hwf.2

theorem isExpired_mono (e : VariableEntry) (t tLater : Int) (ht : t ≤ tLater)
    (h : e.isExpired t = true) : e.isExpired tLater = true := by
  unfold VariableEntry.isExpired at *
  cases hx : e.expiration with
  | none => rw [hx] at h; exact absurd h (by simp)
  | some d =>
    rw [hx] at h
    simp only [decide_eq_true_eq] at *
    omega

theorem VariableName.create_ok (s : String) (hs : s ≠ "") :
    VariableName.create (JSValue.jsStr s) = .ok s := by
  have : s.isEmpty = false := by
    cases hx : s.isEmpty
    · rfl
    · exact absurd ((String.isEmpty_iff s).mp hx) hs
  simp [VariableName.create, JSValue.truthy, this]

theorem VariableName.create_error_of_invalid (name : JSValue)
    (h : name.validVariableName = false) :
    ∃ e : JsError, e.isNaming = true ∧ VariableName.create name = .error e := by
  cases name with
  | undefined => exact ⟨.referenceError, rfl, rfl⟩
  | jsNull => exact ⟨.referenceError, rfl, rfl⟩
  | jsBool b =>
    cases b
    · exact ⟨.referenceError, rfl, rfl⟩
    · exact ⟨.typeError, rfl, rfl⟩
  | jsNum n =>
    by_cases hn : n = 0
    · exact ⟨.referenceError, rfl, by simp [VariableName.create, JSValue.truthy, hn]⟩
    · exact ⟨.typeError, rfl, by simp [VariableName.create, JSValue.truthy, hn]⟩
  | jsStr s =>
    have hempty : s.isEmpty = true := by
      simpa [JSValue.validVariableName] using h
    exact ⟨.referenceError, rfl, by simp [VariableName.create, JSValue.truthy, hempty]⟩
  | jsObj fields =>
    exact ⟨.typeError, rfl, rfl⟩

theorem replaceFirstList_append_no_d (a b : List Char) (ha : ∀ c ∈ a, c ≠ 'd') :
    replaceFirstList (a ++ 'd' :: 'd' :: b) ['d', 'd'] ['D', 'D']
      = a ++ 'D' :: 'D' :: b := by
  induction a with
  | nil => simp [replaceFirstList, listStartsWith]
  | cons c cs ih =>
    have hc : c ≠ 'd' := ha c (by simp)
    have hrest : ∀ x ∈ cs, x ≠ 'd' := fun x hx => ha x (by simp [hx])
    simp [replaceFirstList, listStartsWith, hc, ih hrest]

/- ## Claim theorems -/

/-- Claim C1: the spec says `setVariableAsync` with an `undefined` value
stores an empty object under the name. The code does execute the guarded
`set(name, {}, expiration)`, but the next `set(name, value, expiration)` is
not guarded, so the empty object is immediately overwritten and the stored
entry's value is `undefined`, not the empty object. Evaluated at the failing
input `setVariableAsync("x", undefined, 0)` on an empty store. -/
theorem c1_undefined_value_overwritten_not_empty_object :
    Context.setVariableAsync [] (JSValue.jsStr "x") JSValue.undefined 0 0
      = (Except.ok (), [("x", { value := JSValue.undefined, expiration := none })]) ∧
    JSValue.undefined ≠ JSValue.jsObj [] :=
  ⟨rfl, fun h => JSValue.noConfusion h⟩

/-- Claim C2: the spec (and the repository README) say `getVariableAsync`
on a missing variable returns the empty string; the code delegates to
`VariableRepository.get`, which returns `null`. Evaluated at the failing
input: a never-set name on an empty store yields `null`, which is not the
empty string. -/
theorem c2_missing_variable_returns_null_not_empty_string :
    (Context.getVariableAsync [] (JSValue.jsStr "missing") 0).1 = Except.ok JSValue.jsNull ∧
    JSValue.jsNull ≠ JSValue.jsStr "" :=
  ⟨rfl, fun h => JSValue.noConfusion h⟩

/-- Claim C3: for every valid name, every value and every negative
expiration, `setVariableAsync` throws `ExpirationError` and returns the
store exactly as it was — no entry is created, removed or modified. -/
theorem c3_negative_expiration_throws_and_store_unchanged
    (s : String) (hs : s ≠ "") (st : VariableRepository) (value : JSValue)
    (expiration : Int) (hexp : expiration < 0) (now : Int) :
    Context.setVariableAsync st (JSValue.jsStr s) value expiration now
      = (Except.error JsError.expirationError, st) := by
  simp [Context.setVariableAsync, VariableName.create_ok s hs, hexp]

theorem c3_witness :
    "x" ≠ "" ∧ (-1 : Int) < 0 ∧
    Context.setVariableAsync [("y", { value := JSValue.jsNull, expiration := none })]
        (JSValue.jsStr "x") JSValue.jsNull (-1) 7
      = (Except.error JsError.expirationError,
         [("y", { value := JSValue.jsNull, expiration := none })]) :=
  ⟨by decide, by decide,
    c3_negative_expiration_throws_and_store_unchanged "x" (by decide)
      [("y", { value := JSValue.jsNull, expiration := none })] JSValue.jsNull (-1)
      (by decide) 7⟩

/-- Claim C4: `set(name, value)` (expiration defaulted to `0`) immediately
followed by `get(name)` at the same instant returns exactly the stored
value, for every store, name, value and clock reading. -/
theorem c4_set_then_get_roundtrip (st : VariableRepository) (name : String)
    (value : JSValue) (now : Int) :
    (VariableRepository.get (VariableRepository.set st name value 0 now) name now).1
      = value := by
  have h1 : VariableRepository.set st name value 0 now
      = st.mapSet name { value := value, expiration := none } := by
    simp [VariableRepository.set, VariableEntry.create]
  rw [h1]
  simp [VariableRepository.get, mapGet_mapSet_self, VariableEntry.isExpired]

/-- Claim C5 counterexample: the claim says an entry with `ttlMillis > 0` is
observed expired at exactly the deadline (elapsed time equal to the TTL).
With `ttl = 5` set at time `0`, at time `5` the source's strict comparison
`Date.now() > this.expiration` is false: `get` still returns the value and
`has` is still true. -/
theorem c5_counterexample_entry_still_live_at_exact_deadline :
    (VariableRepository.get (VariableRepository.set [] "x" (JSValue.jsStr "v") 5 0) "x" 5).1
      = JSValue.jsStr "v" ∧
    VariableRepository.has (VariableRepository.set [] "x" (JSValue.jsStr "v") 5 0) "x" 5
      = true :=
  ⟨rfl, rfl⟩

/-- Claim C5 as amended: an entry stored with `ttlMillis > 0` is observed
expired once elapsed time is strictly greater than the TTL (not at the exact
deadline): `get` then returns the absent representation and `has` returns
false. -/
theorem c5_amended_expired_strictly_after_deadline
    (st : VariableRepository) (name : String) (value : JSValue) (ttl now t : Int)
    (httl : 0 < ttl) (ht : now + ttl < t) :
    (VariableRepository.get (VariableRepository.set st name value ttl now) name t).1
      = JSValue.jsNull ∧
    VariableRepository.has (VariableRepository.set st name value ttl now) name t = false := by
  have hget := mapGet_mapSet_self st name (VariableEntry.create value ttl now)
  have hexp : (VariableEntry.create value ttl now).isExpired t = true := by
    simp only [VariableEntry.create, VariableEntry.isExpired, httl, if_pos]
    simpa using ht
  constructor
  · simp [VariableRepository.get, VariableRepository.set, hget, hexp]
  · simp [VariableRepository.has, VariableRepository.set, hget, hexp]

theorem c5_amended_witness :
    (0 : Int) < 5 ∧ (0 : Int) + 5 < 6 ∧
    ((VariableRepository.get (VariableRepository.set [] "x" (JSValue.jsStr "v") 5 0) "x" 6).1
        = JSValue.jsNull ∧
     VariableRepository.has (VariableRepository.set [] "x" (JSValue.jsStr "v") 5 0) "x" 6
        = false) :=
  ⟨by decide, by decide,
    c5_amended_expired_strictly_after_deadline [] "x" (JSValue.jsStr "v") 5 0 6
      (by decide) (by decide)⟩

/-- Claim C6: an entry stored with expiration `0` (the defaulted argument)
has a `null` expiry deadline and is never observed expired: at every later
(indeed, every) clock reading, `get` returns the stored value and `has` is
true, until an explicit delete or overwriting set. -/
theorem c6_zero_ttl_never_expires (st : VariableRepository) (name : String)
    (value : JSValue) (now t : Int) :
    (VariableRepository.set st name value 0 now).mapGet name
      = some { value := value, expiration := none } ∧
    (VariableRepository.get (VariableRepository.set st name value 0 now) name t).1 = value ∧
    VariableRepository.has (VariableRepository.set st name value 0 now) name t = true := by
  have h1 : VariableRepository.set st name value 0 now
      = st.mapSet name { value := value, expiration := none } := by
    simp [VariableRepository.set, VariableEntry.create]
  rw [h1]
  have hget := mapGet_mapSet_self st name
    { value := value, expiration := none : VariableEntry }
  exact ⟨hget, by simp [VariableRepository.get, hget, VariableEntry.isExpired],
    by simp [VariableRepository.has, hget, VariableEntry.isExpired]⟩

/-- Claim C7: for every invalid name (empty string, `undefined`/`null`, or
any non-string value), each of the three `Context` methods fails with a
naming error produced by `VariableName` construction — a `ReferenceError`
for falsy names, a `TypeError` for truthy non-strings — and the repository
is returned untouched. -/
theorem c7_invalid_name_throws_naming_error_store_untouched
    (name : JSValue) (hname : name.validVariableName = false)
    (st : VariableRepository) (value : JSValue) (expiration now : Int) :
    ∃ e : JsError, e.isNaming = true ∧
      Context.getVariableAsync st name now = (.error e, st) ∧
      Context.setVariableAsync st name value expiration now = (.error e, st) ∧
      Context.deleteVariableAsync st name now = (.error e, st) := by
  obtain ⟨e, he, hcreate⟩ := VariableName.create_error_of_invalid name hname
  exact ⟨e, he,
    by simp [Context.getVariableAsync, hcreate],
    by simp [Context.setVariableAsync, hcreate],
    by simp [Context.deleteVariableAsync, hcreate]⟩

theorem c7_witness :
    (JSValue.jsNum 5).validVariableName = false ∧
    (∃ e : JsError, e.isNaming = true ∧
      Context.getVariableAsync [] (JSValue.jsNum 5) 0 = (.error e, []) ∧
      Context.setVariableAsync [] (JSValue.jsNum 5) JSValue.jsNull 3 0 = (.error e, []) ∧
      Context.deleteVariableAsync [] (JSValue.jsNum 5) 0 = (.error e, [])) :=
  ⟨rfl, c7_invalid_name_throws_naming_error_store_untouched (JSValue.jsNum 5) rfl
    [] JSValue.jsNull 3 0⟩

/-- Claim C8 counterexample: the claim says every occurrence of the "dd"
token is translated to "DD". The source uses `format.replace("dd", "DD")`
with a string search argument, which replaces only the first occurrence:
on the format "dd/dd" the result is "DD/dd", not "DD/DD". -/
theorem c8_counterexample_second_token_not_translated :
    TimeFormatter.replaceFormatTokens "dd/dd" = "DD/dd" ∧
    TimeFormatter.replaceFormatTokens "dd/dd" ≠ "DD/DD" := by
  refine ⟨rfl, ?_⟩
  decide

/-- Claim C8 as amended: only the first occurrence of the day-of-month token
"dd" is translated to "DD" (the leftmost; anything before it is unchanged,
as is everything after it, even later occurrences of "dd"), and when no
format is given the fixed default pattern with seven sub-second digits and a
numeric zone offset is used. -/
theorem c8_amended_first_occurrence_translated
    (a b : String) (ha : ∀ c ∈ a.data, c ≠ 'd') :
    Time.normalizeFormat none = "YYYY-MM-DDTHH:mm:ss.SSSSSSSZ" ∧
    TimeFormatter.replaceFormatTokens (a ++ "dd" ++ b) = a ++ "DD" ++ b := by
  refine ⟨rfl, ?_⟩
  have h := replaceFirstList_append_no_d a.data b.data ha
  apply String.ext
  show replaceFirstList ((a ++ "dd" ++ b).data) "dd".data "DD".data
      = (a ++ "DD" ++ b).data
  rw [String.data_append, String.data_append, String.data_append, String.data_append]
  have hdd : "dd".data = ['d', 'd'] := rfl
  have hDD : "DD".data = ['D', 'D'] := rfl
  rw [hdd, hDD, List.append_assoc, List.append_assoc]
  simpa using h

theorem c8_amended_witness :
    (∀ c ∈ ("T/" : String).data, c ≠ 'd') ∧
    (Time.normalizeFormat none = "YYYY-MM-DDTHH:mm:ss.SSSSSSSZ" ∧
     TimeFormatter.replaceFormatTokens ("T/" ++ "dd" ++ "!") = "T/" ++ "DD" ++ "!") :=
  ⟨by decide, c8_amended_first_occurrence_translated "T/" "!" (by decide)⟩

/-- Claim C9: in the successor HTTP facade, when `JSON.parse` fails on the
raw body, the constructed response has no `json` value, `jsonAsync` resolves
to nothing, no error escapes the constructor, and the `status`, `headers`,
`body` and `success` fields are still populated as usual. -/
theorem c9_malformed_json_body_yields_absent_json_field
    (status : Int) (headers : List (String × String)) (rawBody errMsg : String) :
    (HttpResponseWrapper.create status headers rawBody (Except.error errMsg)).json = none ∧
    (HttpResponseWrapper.create status headers rawBody (Except.error errMsg)).jsonAsync
      = none ∧
    (HttpResponseWrapper.create status headers rawBody (Except.error errMsg)).status
      = status ∧
    (HttpResponseWrapper.create status headers rawBody (Except.error errMsg)).headers
      = headers ∧
    (HttpResponseWrapper.create status headers rawBody (Except.error errMsg)).body
      = rawBody ∧
    (HttpResponseWrapper.create status headers rawBody (Except.error errMsg)).success
      = (status ≥ 200 && status < 300) :=
  ⟨rfl, rfl, rfl, rfl, rfl, rfl⟩

/-- Claim C10: after `deleteVariableAsync(name)` completes on a well-formed
store, `getVariableAsync(name)` returns the absent representation (`null`)
and `has(name)` is false at every subsequent instant — including the case of
an entry that was already expired, in which the method returns early without
removing the entry from the map (third conjunct) yet the entry stays
unobservable through the public operations. -/
theorem c10_delete_makes_name_unobservable
    (st : VariableRepository) (hwf : st.wellFormed) (s : String) (hs : s ≠ "")
    (t tLater : Int) (ht : t ≤ tLater) :
    (Context.getVariableAsync (Context.deleteVariableAsync st (JSValue.jsStr s) t).2
        (JSValue.jsStr s) tLater).1 = Except.ok JSValue.jsNull ∧
    VariableRepository.has (Context.deleteVariableAsync st (JSValue.jsStr s) t).2 s tLater
      = false ∧
    (VariableRepository.has st s t = false →
      (Context.deleteVariableAsync st (JSValue.jsStr s) t).2 = st) := by
  have hok := VariableName.create_ok s hs
  by_cases hhas : VariableRepository.has st s t = true
  · have hdel : (Context.deleteVariableAsync st (JSValue.jsStr s) t).2 = st.mapDelete s := by
      simp [Context.deleteVariableAsync, hok, hhas, VariableRepository.delete]
    have hnone := mapGet_mapDelete_self st s hwf
    rw [hdel]
    refine ⟨?_, ?_, fun hfalse => ?_⟩
    · simp [Context.getVariableAsync, hok, VariableRepository.get, hnone]
    · simp [VariableRepository.has, hnone]
    · rw [hfalse] at hhas; exact Bool.noConfusion hhas
  · have hfalse : VariableRepository.has st s t = false := by
      cases hx : VariableRepository.has st s t
      · rfl
      · exact absurd hx hhas
    have hdel : (Context.deleteVariableAsync st (JSValue.jsStr s) t).2 = st := by
      simp [Context.deleteVariableAsync, hok, hfalse]
    rw [hdel]
    refine ⟨?_, ?_, fun _ => rfl⟩ <;>
    · cases hget : st.mapGet s with
      | none =>
        simp [Context.getVariableAsync, hok, VariableRepository.get,
          VariableRepository.has, hget]
      | some e =>
        have hexp_t : e.isExpired t = true := by
          cases hx : e.isExpired t
          · exfalso
            simp [VariableRepository.has, hget, hx] at hfalse
          · rfl
        have hexp := isExpired_mono e t tLater ht hexp_t
        simp [Context.getVariableAsync, hok, VariableRepository.get,
          VariableRepository.has, hget, hexp]

theorem c10_witness :
    VariableRepository.wellFormed
      [("x", { value := JSValue.jsBool true, expiration := some 10 })] ∧
    "x" ≠ "" ∧ (20 : Int) ≤ 21 ∧
    ((Context.getVariableAsync
        (Context.deleteVariableAsync
          [("x", { value := JSValue.jsBool true, expiration := some 10 })]
          (JSValue.jsStr "x") 20).2 (JSValue.jsStr "x") 21).1 = Except.ok JSValue.jsNull ∧
     VariableRepository.has
        (Context.deleteVariableAsync
          [("x", { value := JSValue.jsBool true, expiration := some 10 })]
          (JSValue.jsStr "x") 20).2 "x" 21 = false ∧
     (VariableRepository.has
        [("x", { value := JSValue.jsBool true, expiration := some 10 })] "x" 20 = false →
      (Context.deleteVariableAsync
          [("x", { value := JSValue.jsBool true, expiration := some 10 })]
          (JSValue.jsStr "x") 20).2
        = [("x", { value := JSValue.jsBool true, expiration := some 10 })])) :=
  ⟨by simp [VariableRepository.wellFormed], by decide, by decide,
    c10_delete_makes_name_unobservable
      [("x", { value := JSValue.jsBool true, expiration := some 10 })]
      (by simp [VariableRepository.wellFormed]) "x" (by decide) 20 21 (by decide)⟩
